/-
Verification of core subsystems of the linmo RTOS kernel (vicLin8712/linmo).

This file is a shallow embedding of the kernel modules relevant to the
checked claims:
  * src/kernel/mutex.c      (mutexes and condition variables)
  * src/kernel/semaphore.c  (counting semaphores)
  * src/kernel/task.c       (scheduler, spawn/cancel/delay)
  * src/kernel/timer.c      (software timers)
together with the generic containers they use:
  * src/include/lib/list.h  (singly linked list with head/tail sentinels)
  * src/include/lib/queue.h, src/lib/queue.c (power-of-two ring buffer)

Modelling conventions, used consistently below:
  * Machine integers become `Nat`/`Int`; wrap-around is written explicitly
    with `% 2^w` exactly where the C type can overflow (uint16_t ids and
    counters, uint32_t tick arithmetic).
  * Pointers to task control blocks are replaced by the task id; the global
    heap of TCBs is a total map `Nat → TCB`.  The intrusive list nodes
    (`rq_node`, `mutex_node`, `t_running_node`) are each owned by exactly
    one task/timer, so a node pointer is identified with the id of its
    owner and a wait list / ready queue becomes a `List Nat` of ids in the
    linked-list order (sentinels are pure representation).
  * `panic(...)` ends execution and so has no post state: functions that
    can panic return `Option`, with `none` for the panic.
  * Pointer-validity and magic-tag checks (`m->magic == MUTEX_MAGIC`,
    non-NULL list pointers) hold for every live, initialized object and are
    the non-structural part of the `*_is_valid` helpers; only their
    structural content is kept.
-/
import Mathlib

set_option autoImplicit false

namespace Linmo

/-! ## Error codes (src/include/private/error.h)

The enum starts at `ERR_NO_TASKS = -16383` and counts upward. -/

def ERR_OK : Int := 0

def ERR_FAIL : Int := -1

def ERR_NO_TASKS : Int := -16383

def ERR_TASK_CANT_REMOVE : Int := -16379

def ERR_TASK_NOT_FOUND : Int := -16378

def ERR_TASK_BUSY : Int := -16373

def ERR_NOT_OWNER : Int := -16372

def ERR_SEM_OPERATION : Int := -16366

def ERR_TIMEOUT : Int := -16364

/-! ## Task control blocks (src/include/sys/task.h) -/

/-- Task lifecycle states, `enum task_states`. -/
inductive TaskState where
  | stopped
  | ready
  | running
  | blocked
  | suspended
deriving DecidableEq, Repr

/-- The fields of `tcb_t` that carry scheduling state.  Stack, entry point
and saved contexts are machine-level resources with no bearing on the
claims and are omitted.  `prio_level` is produced only by
`extract_priority_level`, which always yields a value in 0..7. -/
structure TCB where
  id : Nat
  state : TaskState
  delay : Nat
  prio : Nat
  prio_level : Fin 8
  time_slice : Nat
deriving DecidableEq, Repr

/-- The global store of TCBs, keyed by task id (pointer-to-TCB becomes the
id of the task it points to). -/
abbrev TaskHeap := Nat → TCB

/-- Pointwise update of one TCB, the effect of a store through a
`tcb_t *`. -/
def updTask (h : TaskHeap) (i : Nat) (f : TCB → TCB) : TaskHeap :=
  fun j => if j = i then f (h j) else h j

theorem updTask_same (h : TaskHeap) (i : Nat) (f : TCB → TCB) :
    updTask h i f i = f (h i) := by
  simp [updTask]

theorem updTask_other (h : TaskHeap) (i j : Nat) (f : TCB → TCB)
    (hij : j ≠ i) : updTask h i f j = h j := by
  simp [updTask, hij]

/-! ## Mutexes (src/kernel/mutex.c)

`mutex_t` holds `owner_tid` (0 when unlocked) and the FIFO `waiters` list.
A waiting task is pushed with `list_pushback(m->waiters, &self->mutex_node)`
and recovered with `tcb_from_mutex_node`, so the list is modelled as the
list of waiting task ids in FIFO order (head = oldest). -/

structure MutexObj where
  owner_tid : Nat
  waiters : List Nat
deriving DecidableEq, Repr

/-- Combined state a mutex operation can touch: the mutex object and the
task heap. -/
structure MutexSys where
  mtx : MutexObj
  tasks : TaskHeap

/-- Structural part of `mutex_is_valid`: `m->owner_tid == 0 ||
m->owner_tid < UINT16_MAX` (the pointer and magic checks hold for every
live mutex). -/
def mutex_is_valid (m : MutexObj) : Bool :=
  m.owner_tid == 0 || m.owner_tid < 65535

/-- Embedding of `mo_mutex_trylock` (mutex.c:169-191).  `self` is
`mo_task_id()`.  Returns the new state and the `int32_t` result. -/
def mo_mutex_trylock (self : Nat) (s : MutexSys) : MutexSys × Int :=
  if mutex_is_valid s.mtx = false then (s, ERR_FAIL)
  else if s.mtx.owner_tid = self then (s, ERR_TASK_BUSY)
  else if s.mtx.owner_tid = 0 then
    ({ s with mtx := { s.mtx with owner_tid := self } }, ERR_OK)
  else (s, ERR_TASK_BUSY)

/-- Embedding of `mo_mutex_unlock` (mutex.c:257-299).  On the non-empty
path the FIFO head is popped; `panic(ERR_SEM_OPERATION)` (modelled `none`)
fires when the popped task is not BLOCKED. -/
def mo_mutex_unlock (self : Nat) (s : MutexSys) : Option (MutexSys × Int) :=
  if mutex_is_valid s.mtx = false then some (s, ERR_FAIL)
  else if s.mtx.owner_tid ≠ self then some (s, ERR_NOT_OWNER)
  else
    match s.mtx.waiters with
    | [] => some ({ s with mtx := { s.mtx with owner_tid := 0 } }, ERR_OK)
    | w :: rest =>
      if (s.tasks w).state = TaskState.blocked then
        some ({ mtx := { owner_tid := (s.tasks w).id, waiters := rest },
                tasks := updTask s.tasks w
                  (fun t => { t with state := TaskState.ready, delay := 0 }) },
              ERR_OK)
      else none

/-- Result of the first phase of a (timed) lock attempt: either the call
returns with a code, or the caller has been enqueued, marked BLOCKED and
yields. -/
inductive LockStep where
  | ret : MutexSys → Int → LockStep
  | blockAndYield : MutexSys → LockStep

/-- Embedding of `mo_mutex_timedlock` (mutex.c:193-255) up to its yield
point.  With `ticks == 0` the C code literally returns
`mo_mutex_trylock(m)`.  With `ticks > 0` and the mutex owned by a third
task, the caller is appended to the FIFO wait list, its `delay` is set and
it blocks (the post-wake phase is not needed by the claims). -/
def mo_mutex_timedlock (self : Nat) (ticks : Nat) (s : MutexSys) : LockStep :=
  if mutex_is_valid s.mtx = false then .ret s ERR_FAIL
  else if ticks = 0 then
    .ret (mo_mutex_trylock self s).1 (mo_mutex_trylock self s).2
  else if s.mtx.owner_tid = self then .ret s ERR_TASK_BUSY
  else if s.mtx.owner_tid = 0 then
    .ret { s with mtx := { s.mtx with owner_tid := self } } ERR_OK
  else
    .blockAndYield
      { mtx := { s.mtx with waiters := s.mtx.waiters ++ [self] },
        tasks := updTask s.tasks self
          (fun t => { t with delay := ticks, state := TaskState.blocked }) }

/-! ### Claims C1 and C5 -/

/-- C1: for every valid mutex, `mo_mutex_unlock` called by the owner with
an empty wait list clears `owner_tid` and returns OK; with a non-empty
wait list it pops exactly the FIFO head `w`, transfers ownership to `w`
(`owner_tid := w.id`), clears `w`'s delay, marks `w` READY and leaves every
other task untouched, returning OK; a caller that is not the owner gets
`ERR_NOT_OWNER` and the state is unchanged. -/
theorem mutex_unlock_spec (self : Nat) (s : MutexSys)
    (hval : mutex_is_valid s.mtx = true) :
    (s.mtx.owner_tid ≠ self → mo_mutex_unlock self s = some (s, ERR_NOT_OWNER))
    ∧ (s.mtx.owner_tid = self → s.mtx.waiters = [] →
        mo_mutex_unlock self s =
          some ({ s with mtx := { s.mtx with owner_tid := 0 } }, ERR_OK))
    ∧ (∀ w rest, s.mtx.owner_tid = self → s.mtx.waiters = w :: rest →
        (s.tasks w).state = TaskState.blocked →
        mo_mutex_unlock self s =
          some ({ mtx := { owner_tid := (s.tasks w).id, waiters := rest },
                  tasks := updTask s.tasks w
                    (fun t => { t with state := TaskState.ready, delay := 0 }) },
                ERR_OK)
        ∧ (updTask s.tasks w
            (fun t => { t with state := TaskState.ready, delay := 0 }) w).state
              = TaskState.ready
        ∧ (updTask s.tasks w
            (fun t => { t with state := TaskState.ready, delay := 0 }) w).delay = 0
        ∧ (∀ v, v ≠ w → updTask s.tasks w
            (fun t => { t with state := TaskState.ready, delay := 0 }) v
              = s.tasks v)) := by
  refine ⟨?_, ?_, ?_⟩
  · intro hown
    simp [mo_mutex_unlock, hval, hown]
  · intro hown hw
    simp [mo_mutex_unlock, hval, hown, hw]
  · intro w rest hown hw hblk
    refine ⟨?_, ?_, ?_, ?_⟩
    · simp [mo_mutex_unlock, hval, hown, hw, hblk]
    · simp [updTask]
    · simp [updTask]
    · intro v hv
      simp [updTask, hv]

/-- Concrete instantiation of `mutex_unlock_spec`: task 1 owns the mutex,
task 2 is the FIFO head waiter (BLOCKED with a pending timeout), task 3
waits behind it. -/
def mtxDemoTasks : TaskHeap := fun j =>
  { id := j,
    state := if j = 2 ∨ j = 3 then TaskState.blocked else TaskState.running,
    delay := if j = 2 then 7 else 0,
    prio := 0x1F1F, prio_level := 4, time_slice := 5 }

def mtxDemo : MutexSys :=
  { mtx := { owner_tid := 1, waiters := [2, 3] }, tasks := mtxDemoTasks }

theorem mutex_unlock_spec_witness :
    mo_mutex_unlock 1 mtxDemo =
      some ({ mtx := { owner_tid := (mtxDemo.tasks 2).id, waiters := [3] },
              tasks := updTask mtxDemo.tasks 2
                (fun t => { t with state := TaskState.ready, delay := 0 }) },
            ERR_OK)
    ∧ (updTask mtxDemo.tasks 2
        (fun t => { t with state := TaskState.ready, delay := 0 }) 2).state
          = TaskState.ready := by
  have h := (mutex_unlock_spec 1 mtxDemo (by decide)).2.2 2 [3] rfl rfl (by decide)
  exact ⟨h.1, h.2.1⟩

/-- C5: `mo_mutex_timedlock` with `ticks == 0` returns exactly what
`mo_mutex_trylock` returns, with the same resulting state, and never
blocks or yields; and `mo_mutex_trylock` on a valid mutex acquires it
(OK, `owner_tid := self`) iff it was free, otherwise — including when the
caller already owns it — returns `ERR_TASK_BUSY` and changes nothing. -/
theorem mutex_timedlock_zero_spec (self : Nat) (s : MutexSys) :
    mo_mutex_timedlock self 0 s =
      .ret (mo_mutex_trylock self s).1 (mo_mutex_trylock self s).2
    ∧ (mutex_is_valid s.mtx = true → s.mtx.owner_tid = 0 → self ≠ 0 →
        mo_mutex_trylock self s =
          ({ s with mtx := { s.mtx with owner_tid := self } }, ERR_OK))
    ∧ (mutex_is_valid s.mtx = true → s.mtx.owner_tid ≠ 0 →
        mo_mutex_trylock self s = (s, ERR_TASK_BUSY)) := by
  refine ⟨?_, ?_, ?_⟩
  · by_cases hval : mutex_is_valid s.mtx = false
    · simp [mo_mutex_timedlock, mo_mutex_trylock, hval]
    · simp [mo_mutex_timedlock, hval]
  · intro hval hfree hself
    simp [mo_mutex_trylock, hval, hfree, Ne.symm hself]
  · intro hval hown
    by_cases hself : s.mtx.owner_tid = self
    · simp [mo_mutex_trylock, hval, hself]
    · simp [mo_mutex_trylock, hval, hself, hown]

/-- Free mutex used to instantiate `mutex_timedlock_zero_spec`. -/
def mtxFree : MutexSys :=
  { mtx := { owner_tid := 0, waiters := [] }, tasks := mtxDemoTasks }

theorem mutex_timedlock_zero_spec_witness :
    mo_mutex_timedlock 1 0 mtxFree =
      .ret (mo_mutex_trylock 1 mtxFree).1 (mo_mutex_trylock 1 mtxFree).2
    ∧ mo_mutex_trylock 1 mtxFree =
        ({ mtxFree with mtx := { mtxFree.mtx with owner_tid := 1 } }, ERR_OK) := by
  have h := mutex_timedlock_zero_spec 1 mtxFree
  exact ⟨h.1, h.2.1 (by decide) (by decide) (by decide)⟩

/-! ## Condition variables (src/kernel/mutex.c:322-537)

`cond_t` holds only its FIFO `waiters` list (plus a magic tag covered by
the validity convention above).  `mo_cond_wait`/`mo_cond_timedwait` push
`&self->mutex_node`, and the wake paths recover the waiting TCB from the
popped list data, so the list is again the list of waiting task ids. -/

/-- State a condition-variable wake operation can touch. -/
structure CondSys where
  waiters : List Nat
  tasks : TaskHeap

/-- Embedding of `mo_cond_signal` (mutex.c:473-497): on a non-empty list
pop exactly the FIFO head; a popped task that is not BLOCKED is a panic
(`none`); an empty list is left untouched.  Both return `ERR_OK`. -/
def mo_cond_signal (s : CondSys) : Option (CondSys × Int) :=
  match s.waiters with
  | [] => some (s, ERR_OK)
  | w :: rest =>
    if (s.tasks w).state = TaskState.blocked then
      some ({ waiters := rest,
              tasks := updTask s.tasks w
                (fun t => { t with state := TaskState.ready, delay := 0 }) },
            ERR_OK)
    else none

/-- The `while (!list_is_empty(c->waiters))` loop of `mo_cond_broadcast`
(mutex.c:507-520): pop every waiter in FIFO order, waking each. -/
def cond_wake_all : List Nat → TaskHeap → Option TaskHeap
  | [], h => some h
  | w :: rest, h =>
    if (h w).state = TaskState.blocked then
      cond_wake_all rest
        (updTask h w (fun t => { t with state := TaskState.ready, delay := 0 }))
    else none

/-- Embedding of `mo_cond_broadcast` (mutex.c:499-524). -/
def mo_cond_broadcast (s : CondSys) : Option (CondSys × Int) :=
  match cond_wake_all s.waiters s.tasks with
  | none => none
  | some h => some ({ waiters := [], tasks := h }, ERR_OK)

theorem cond_wake_all_spec (l : List Nat) (h : TaskHeap)
    (hnd : l.Nodup)
    (hall : ∀ w ∈ l, (h w).state = TaskState.blocked) :
    ∃ h', cond_wake_all l h = some h'
      ∧ (∀ w ∈ l, (h' w).state = TaskState.ready ∧ (h' w).delay = 0)
      ∧ (∀ v, v ∉ l → h' v = h v) := by
  induction l generalizing h with
  | nil => exact ⟨h, rfl, by simp, fun v _ => rfl⟩
  | cons w rest ih =>
    have hw : (h w).state = TaskState.blocked := hall w (by simp)
    have hwrest : w ∉ rest := (List.nodup_cons.mp hnd).1
    have hrest : ∀ u ∈ rest,
        ((updTask h w (fun t => { t with state := TaskState.ready, delay := 0 })) u).state
          = TaskState.blocked := by
      intro u hu
      have huw : u ≠ w := fun he => hwrest (he ▸ hu)
      rw [updTask_other h w u _ huw]
      exact hall u (by simp [hu])
    obtain ⟨h', hrun, hwoken, hframe⟩ :=
      ih (updTask h w (fun t => { t with state := TaskState.ready, delay := 0 }))
        (List.nodup_cons.mp hnd).2 hrest
    refine ⟨h', ?_, ?_, ?_⟩
    · simpa [cond_wake_all, hw] using hrun
    · intro u hu
      rcases List.mem_cons.mp hu with hu | hu
      · subst hu
        have := hframe u hwrest
        rw [this, updTask_same]
        exact ⟨rfl, rfl⟩
      · exact hwoken u hu
    · intro v hv
      have hvw : v ≠ w := fun he => hv (he ▸ List.mem_cons_self w rest)
      have hvrest : v ∉ rest := fun hr => hv (List.mem_cons_of_mem w hr)
      rw [hframe v hvrest, updTask_other h w v _ hvw]

/-- C4: `mo_cond_signal` on a non-empty condition variable removes exactly
the FIFO head from the wait list, marks it READY, clears its delay and
touches no other task; `mo_cond_broadcast` on a condition variable with K
(pairwise distinct, BLOCKED) waiters empties the wait list and moves
exactly those K tasks to READY (with delays cleared, all other tasks
untouched); on an empty condition variable both are no-ops returning
`ERR_OK`. -/
theorem cond_signal_broadcast_spec (s : CondSys) (w : Nat) (rest : List Nat) :
    (s.waiters = [] →
      mo_cond_signal s = some (s, ERR_OK) ∧ mo_cond_broadcast s = some (s, ERR_OK))
    ∧ (s.waiters = w :: rest → (s.tasks w).state = TaskState.blocked →
        mo_cond_signal s =
          some ({ waiters := rest,
                  tasks := updTask s.tasks w
                    (fun t => { t with state := TaskState.ready, delay := 0 }) },
                ERR_OK)
        ∧ (updTask s.tasks w
            (fun t => { t with state := TaskState.ready, delay := 0 }) w).state
              = TaskState.ready
        ∧ (updTask s.tasks w
            (fun t => { t with state := TaskState.ready, delay := 0 }) w).delay = 0
        ∧ (∀ v, v ≠ w → updTask s.tasks w
            (fun t => { t with state := TaskState.ready, delay := 0 }) v = s.tasks v))
    ∧ (s.waiters.Nodup → (∀ u ∈ s.waiters, (s.tasks u).state = TaskState.blocked) →
        ∃ h', mo_cond_broadcast s = some ({ waiters := [], tasks := h' }, ERR_OK)
          ∧ (∀ u ∈ s.waiters, (h' u).state = TaskState.ready ∧ (h' u).delay = 0)
          ∧ (∀ v, v ∉ s.waiters → h' v = s.tasks v)) := by
  refine ⟨?_, ?_, ?_⟩
  · intro hw
    constructor
    · simp [mo_cond_signal, hw]
    · cases s with
      | mk waiters tasks =>
        simp only at hw
        subst hw
        simp [mo_cond_broadcast, cond_wake_all]
  · intro hw hblk
    refine ⟨by simp [mo_cond_signal, hw, hblk], by simp [updTask], by simp [updTask], ?_⟩
    intro v hv
    simp [updTask, hv]
  · intro hnd hall
    obtain ⟨h', hrun, hwoken, hframe⟩ := cond_wake_all_spec s.waiters s.tasks hnd hall
    exact ⟨h', by simp [mo_cond_broadcast, hrun], hwoken, hframe⟩

/-- Condition variable with two blocked waiters, used to instantiate
`cond_signal_broadcast_spec`. -/
def cvDemo : CondSys := { waiters := [2, 3], tasks := mtxDemoTasks }

theorem cond_signal_broadcast_spec_witness :
    mo_cond_signal cvDemo =
      some ({ waiters := [3],
              tasks := updTask cvDemo.tasks 2
                (fun t => { t with state := TaskState.ready, delay := 0 }) },
            ERR_OK)
    ∧ ∃ h', mo_cond_broadcast cvDemo = some ({ waiters := [], tasks := h' }, ERR_OK)
        ∧ (∀ u ∈ cvDemo.waiters, (h' u).state = TaskState.ready ∧ (h' u).delay = 0)
        ∧ (∀ v, v ∉ cvDemo.waiters → h' v = cvDemo.tasks v) := by
  have h := cond_signal_broadcast_spec cvDemo 2 [3]
  refine ⟨(h.2.1 rfl (by decide)).1, h.2.2 (by decide) ?_⟩
  intro u hu
  fin_cases hu <;> decide

/-! ## Scheduler state (src/kernel/task.c, src/include/sys/task.h)

The kernel control block fields the claims touch.  Ready queues hold the
tasks' intrusive `rq_node`s (one per task, `rq_node.data = tcb`), so each
queue is a `List Nat` of task ids in linked order and a node pointer — the
per-level round-robin cursor, `kcb->task_current` — is the id of the task
owning the node (`none` = NULL).  `list_pushback_node`/`list_remove_node`,
declared by their call sites in task.c but not shipped under src/, are
modelled from the spec: enqueue a task's node at the tail of its level's
queue, unlink a task's node from its queue. -/

structure SchedState where
  tasks : TaskHeap
  master : List Nat
  task_current : Option Nat
  next_tid : Nat
  task_count : Nat
  ready_bitmap : Nat
  ready_queues : Fin 8 → List Nat
  rr_cursors : Fin 8 → Option Nat

/-- Priority-to-timeslice table `priority_timeslices` together with the
range guard of `get_priority_timeslice` (task.c:83-88). -/
def get_priority_timeslice (lvl : Fin 8) : Nat :=
  match lvl.val with
  | 0 => 1
  | 1 => 2
  | 2 => 3
  | 3 => 4
  | 4 => 5
  | 5 => 7
  | 6 => 10
  | _ => 15

/-- Embedding of `extract_priority_level` (task.c:91-114). -/
def extract_priority_level (prio : Nat) : Fin 8 :=
  match prio with
  | 0x0101 => 0
  | 0x0303 => 1
  | 0x0707 => 2
  | 0x0F0F => 3
  | 0x1F1F => 4
  | 0x3F3F => 5
  | 0x7F7F => 6
  | 0xFFFF => 7
  | _ => 4

/-- Embedding of `list_cnext` (list.h:64-70) on a ready queue: the node
after `x`, wrapping from the last node to the first (`none` when `x` has
no node in the queue — in C the cursor always points into its queue). -/
def cnext (l : List Nat) (x : Nat) : Option Nat :=
  match l.findIdx? (fun y => y = x) with
  | none => none
  | some i => l.get? ((i + 1) % l.length)

/-- Removal of one task's intrusive node from a queue
(`list_remove_node`; a task owns a single `rq_node`, so the node is the
first — and only — occurrence of the id). -/
def removeFirst : List Nat → Nat → List Nat
  | [], _ => []
  | y :: ys, x => if y = x then ys else y :: removeFirst ys x

/-- Embedding of `sched_enqueue_task` (task.c:361-390): refill the time
slice, mark READY, push the task's node at the tail of its level's queue,
initialize or repair the level cursor, and set the level's bit in the
ready bitmap (`uint8_t`, level < 8 so no truncation). -/
def sched_enqueue_task (s : SchedState) (tid : Nat) : SchedState :=
  let lvl := (s.tasks tid).prio_level
  let c0 := s.rr_cursors lvl
  let c1 := if c0 = none then some tid else c0
  let c2 := if c1 = s.task_current then some tid else c1
  { s with
    tasks := updTask s.tasks tid
      (fun t => { t with time_slice := get_priority_timeslice lvl,
                         state := TaskState.ready }),
    ready_queues := Function.update s.ready_queues lvl (s.ready_queues lvl ++ [tid]),
    rr_cursors := Function.update s.rr_cursors lvl c2,
    ready_bitmap := s.ready_bitmap ||| (1 <<< lvl.val) }

/-- Embedding of `sched_dequeue_task` (task.c:393-418): move the cursor
off the departing node (circular next, computed before removal), unlink
the node, and when the queue empties clear the cursor and the bitmap bit
(`~(1U << lvl)` on the `uint8_t` bitmap, written on 32 bits as in C). -/
def sched_dequeue_task (s : SchedState) (tid : Nat) : SchedState :=
  let lvl := (s.tasks tid).prio_level
  let rq := s.ready_queues lvl
  let c0 := s.rr_cursors lvl
  let c1 := if c0 = some tid then cnext rq tid else c0
  let rq' := removeFirst rq tid
  if rq'.length = 0 then
    { s with ready_queues := Function.update s.ready_queues lvl rq',
             rr_cursors := Function.update s.rr_cursors lvl none,
             ready_bitmap := s.ready_bitmap &&& ((2 ^ 32 - 1) ^^^ (1 <<< lvl.val)) }
  else
    { s with ready_queues := Function.update s.ready_queues lvl rq',
             rr_cursors := Function.update s.rr_cursors lvl c1 }

/-- The bit-scan loop of `sched_select_next_task` (task.c:501-508):
`while (top < 8) { if (bitmap & 1) break; bitmap >>= 1; top++; }`,
returning 8 when no bit among 0..7 is set.  The first argument is the
remaining iteration budget `8 - i`. -/
def bitscanAux : Nat → Nat → Nat → Nat
  | 0, _, i => i
  | fuel + 1, b, i => if b &&& 1 = 1 then i else bitscanAux fuel (b >>> 1) (i + 1)

def sched_top_prio (b : Nat) : Nat := bitscanAux 8 b 0

/-- Embedding of `sched_select_next_task` (task.c:484-532).  Panics
(`none`) when there is no current task, the ready bitmap is empty, or the
chosen level has no queue/cursor.  Otherwise the task under the chosen
level's cursor becomes current and RUNNING with a fresh time slice, and
the cursor advances circularly; the selected task's id is returned. -/
def sched_select_next_task (s : SchedState) : Option (SchedState × Nat) :=
  match s.task_current with
  | none => none
  | some cur =>
    let tasks0 := if (s.tasks cur).state = TaskState.running then
        updTask s.tasks cur (fun t => { t with state := TaskState.ready })
      else s.tasks
    if s.ready_bitmap = 0 then none
    else
      let top := sched_top_prio s.ready_bitmap
      if h : top < 8 then
        let lvl : Fin 8 := ⟨top, h⟩
        match s.rr_cursors lvl with
        | none => none
        | some c =>
          let rq := s.ready_queues lvl
          let tasks1 := updTask tasks0 c
            (fun t => { t with time_slice := get_priority_timeslice t.prio_level,
                               state := TaskState.running })
          some ({ s with tasks := tasks1,
                         task_current := some c,
                         rr_cursors := Function.update s.rr_cursors lvl (cnext rq c) },
                (tasks1 c).id)
      else none

set_option maxRecDepth 8192 in
/-- Scan facts for the eight-level bitmap: on a non-zero `uint8_t` bitmap
the loop stops at a set bit below 8 and every lower-numbered bit is
clear.  The domain is finite, so this is checked by evaluation. -/
theorem sched_top_prio_spec :
    ∀ b : Fin 256, b.val ≠ 0 →
      sched_top_prio b.val < 8 ∧ Nat.testBit b.val (sched_top_prio b.val) = true
      ∧ ∀ j < sched_top_prio b.val, Nat.testBit b.val j = false := by
  decide

/-! ### Claim C6 -/

theorem sched_select_next_eq (s : SchedState) (curid c : Nat)
    (hcur : s.task_current = some curid)
    (hbm0 : ¬ s.ready_bitmap = 0)
    (htop8 : sched_top_prio s.ready_bitmap < 8)
    (hc : s.rr_cursors ⟨sched_top_prio s.ready_bitmap, htop8⟩ = some c) :
    sched_select_next_task s =
      some ({ s with
              tasks := updTask
                (if (s.tasks curid).state = TaskState.running then
                  updTask s.tasks curid (fun t => { t with state := TaskState.ready })
                else s.tasks) c
                (fun t => { t with time_slice := get_priority_timeslice t.prio_level,
                                   state := TaskState.running }),
              task_current := some c,
              rr_cursors := Function.update s.rr_cursors
                ⟨sched_top_prio s.ready_bitmap, htop8⟩
                (cnext (s.ready_queues ⟨sched_top_prio s.ready_bitmap, htop8⟩) c) },
            (s.tasks c).id) := by
  unfold sched_select_next_task
  rw [hcur]
  simp only [if_neg hbm0, dif_pos htop8, hc]
  have hid : (updTask
      (if (s.tasks curid).state = TaskState.running then
        updTask s.tasks curid (fun t => { t with state := TaskState.ready })
      else s.tasks) c
      (fun t => { t with time_slice := get_priority_timeslice t.prio_level,
                         state := TaskState.running }) c).id = (s.tasks c).id := by
    by_cases hrun : (s.tasks curid).state = TaskState.running
    · by_cases hcc : c = curid
      · subst hcc; simp [hrun, updTask]
      · simp [hrun, updTask, hcc]
    · simp [hrun, updTask]
  rw [hid]

/-- C6: whenever `sched_select_next_task` succeeds, the chosen task is the
cursor task of the highest-urgency (lowest-numbered) priority level whose
ready queue is non-empty as indicated by the ready bitmap — every
lower-numbered level's queue is empty — the chosen task lies in that
level's queue and becomes RUNNING, and the level's cursor rotates to the
circularly next node so same-level peers are served in arrival order;
moreover a task becoming READY (`sched_enqueue_task`) is appended at the
tail of exactly its own level's queue. -/
theorem sched_select_next_spec (s : SchedState) (curid : Nat) (anyTid : Nat)
    (hcur : s.task_current = some curid)
    (hbm256 : s.ready_bitmap < 256)
    (hbm0 : s.ready_bitmap ≠ 0)
    (hbits : ∀ i : Fin 8, Nat.testBit s.ready_bitmap i.val = true ↔ s.ready_queues i ≠ [])
    (hcursor : ∀ i : Fin 8, s.ready_queues i ≠ [] →
        ∃ c, s.rr_cursors i = some c ∧ c ∈ s.ready_queues i) :
    (∃ (lvl : Fin 8) (c : Nat) (s' : SchedState),
      lvl.val = sched_top_prio s.ready_bitmap
      ∧ s.ready_queues lvl ≠ []
      ∧ (∀ j : Fin 8, j < lvl → s.ready_queues j = [])
      ∧ s.rr_cursors lvl = some c
      ∧ c ∈ s.ready_queues lvl
      ∧ sched_select_next_task s = some (s', (s.tasks c).id)
      ∧ s'.task_current = some c
      ∧ (s'.tasks c).state = TaskState.running
      ∧ s'.rr_cursors lvl = cnext (s.ready_queues lvl) c)
    ∧ (sched_enqueue_task s anyTid).ready_queues ((s.tasks anyTid).prio_level)
        = s.ready_queues ((s.tasks anyTid).prio_level) ++ [anyTid]
    ∧ (∀ j : Fin 8, j ≠ (s.tasks anyTid).prio_level →
        (sched_enqueue_task s anyTid).ready_queues j = s.ready_queues j)
    ∧ ((sched_enqueue_task s anyTid).tasks anyTid).state = TaskState.ready := by
  obtain ⟨htop8, htopset, htoplow⟩ :=
    sched_top_prio_spec ⟨s.ready_bitmap, hbm256⟩ hbm0
  refine ⟨?_, ?_, ?_, ?_⟩
  · have hqne : s.ready_queues ⟨sched_top_prio s.ready_bitmap, htop8⟩ ≠ [] :=
      (hbits _).mp htopset
    obtain ⟨c, hc, hcm⟩ := hcursor _ hqne
    have hsel := sched_select_next_eq s curid c hcur hbm0 htop8 hc
    refine ⟨⟨sched_top_prio s.ready_bitmap, htop8⟩, c, _, rfl, hqne, ?_, hc, hcm,
      hsel, rfl, ?_, ?_⟩
    · intro j hj
      by_contra hne
      have := (hbits j).mpr hne
      rw [htoplow j.val hj] at this
      exact Bool.false_ne_true this
    · simp [updTask]
    · simp [Function.update]
  · simp [sched_enqueue_task, Function.update]
  · intro j hj
    simp [sched_enqueue_task, Function.update, hj]
  · simp [sched_enqueue_task, updTask]

/-- Concrete scheduler state for the witness: current task 1 (level 4,
RUNNING), tasks 2 and 3 READY at level 4, task 5 READY at level 6; level
4's cursor is at 2, level 6's at 5. -/
def schedDemo : SchedState :=
  { tasks := fun j =>
      { id := j,
        state := if j = 1 then TaskState.running else TaskState.ready,
        delay := 0, prio := 0x1F1F,
        prio_level := if j = 5 then 6 else 4,
        time_slice := 5 },
    master := [1, 2, 3, 5],
    task_current := some 1,
    next_tid := 6, task_count := 4,
    ready_bitmap := (1 <<< 4) ||| (1 <<< 6),
    ready_queues := fun i => if i = 4 then [1, 2, 3] else if i = 6 then [5] else [],
    rr_cursors := fun i => if i = 4 then some 2 else if i = 6 then some 5 else none }

theorem sched_select_next_spec_witness :
    (∃ (lvl : Fin 8) (c : Nat) (s' : SchedState),
      lvl.val = sched_top_prio schedDemo.ready_bitmap
      ∧ schedDemo.ready_queues lvl ≠ []
      ∧ (∀ j : Fin 8, j < lvl → schedDemo.ready_queues j = [])
      ∧ schedDemo.rr_cursors lvl = some c
      ∧ c ∈ schedDemo.ready_queues lvl
      ∧ sched_select_next_task schedDemo = some (s', (schedDemo.tasks c).id)
      ∧ s'.task_current = some c
      ∧ (s'.tasks c).state = TaskState.running
      ∧ s'.rr_cursors lvl = cnext (schedDemo.ready_queues lvl) c)
    ∧ (sched_enqueue_task schedDemo 4).ready_queues ((schedDemo.tasks 4).prio_level)
        = schedDemo.ready_queues ((schedDemo.tasks 4).prio_level) ++ [4] := by
  have h := sched_select_next_spec schedDemo 1 4 rfl (by decide) (by decide)
    (by decide) ?_
  · exact ⟨h.1, h.2.1⟩
  · intro i hi
    fin_cases i <;> simp_all [schedDemo]

/-! ## Task delay (src/kernel/task.c:887-911) and claim C9 -/

/-- Embedding of `mo_task_delay`.  `process_deferred_timer_work()` runs
pending software-timer callbacks; it mutates only the timer subsystem and
is the identity on the scheduler state modelled here.  With `ticks == 0`
the function returns immediately; otherwise the caller is removed from its
ready queue, its `delay` is set, it is marked BLOCKED and it yields.  The
returned flag records whether `mo_task_yield()` ran. -/
def mo_task_delay (s : SchedState) (ticks : Nat) : SchedState × Bool :=
  if ticks = 0 then (s, false)
  else
    match s.task_current with
    | none => (s, false)
    | some self =>
      let s1 := sched_dequeue_task s self
      let f : TCB → TCB := fun t => { t with delay := ticks, state := TaskState.blocked }
      ({ s1 with tasks := updTask s1.tasks self f }, true)

/-- C9: `mo_task_delay` with `ticks == 0` returns at once: the whole
scheduler state — the caller's state and delay fields and every ready
queue — is unchanged and no yield happens; with `ticks > 0` the caller is
removed from its level's ready queue, gets `delay = ticks`, is marked
BLOCKED, and yields. -/
theorem task_delay_spec (s : SchedState) (ticks : Nat) (self : Nat) :
    mo_task_delay s 0 = (s, false)
    ∧ (0 < ticks → s.task_current = some self →
        (mo_task_delay s ticks).2 = true
        ∧ ((mo_task_delay s ticks).1.tasks self).state = TaskState.blocked
        ∧ ((mo_task_delay s ticks).1.tasks self).delay = ticks
        ∧ (mo_task_delay s ticks).1.ready_queues ((s.tasks self).prio_level)
            = removeFirst (s.ready_queues ((s.tasks self).prio_level)) self) := by
  constructor
  · simp [mo_task_delay]
  · intro hpos hcur
    have hne : ¬ ticks = 0 := Nat.pos_iff_ne_zero.mp hpos
    refine ⟨?_, ?_, ?_, ?_⟩
    · simp [mo_task_delay, hne, hcur]
    · simp [mo_task_delay, hne, hcur, updTask]
    · simp [mo_task_delay, hne, hcur, updTask]
    · simp only [mo_task_delay, hne, if_false, hcur]
      unfold sched_dequeue_task
      by_cases hlen :
          (removeFirst (s.ready_queues ((s.tasks self).prio_level)) self).length = 0
      · simp [hlen, Function.update]
      · simp [hlen, Function.update]

theorem task_delay_spec_witness :
    mo_task_delay schedDemo 0 = (schedDemo, false)
    ∧ (mo_task_delay schedDemo 3).2 = true
    ∧ ((mo_task_delay schedDemo 3).1.tasks 1).state = TaskState.blocked
    ∧ ((mo_task_delay schedDemo 3).1.tasks 1).delay = 3
    ∧ (mo_task_delay schedDemo 3).1.ready_queues ((schedDemo.tasks 1).prio_level)
        = removeFirst (schedDemo.ready_queues ((schedDemo.tasks 1).prio_level)) 1 := by
  have h := task_delay_spec schedDemo 3 1
  have h2 := h.2 (by decide) rfl
  exact ⟨h.1, h2.1, h2.2.1, h2.2.2.1, h2.2.2.2⟩

/-! ## Task spawn and cancel (src/kernel/task.c:750-880) and claim C8 -/

/-- Embedding of `mo_task_id` (task.c:1041-1046). -/
def mo_task_id (s : SchedState) : Nat :=
  match s.task_current with
  | none => 0
  | some c => (s.tasks c).id

/-- Embedding of `find_task_node_by_id` (task.c:289-313): first node of
the master list whose TCB has the given id (`id == 0` and a missing master
list give NULL).  The lookup cache consulted first returns the same task
whenever ids are unique, so it is transparent here. -/
def find_task_node_by_id (s : SchedState) (id : Nat) : Option Nat :=
  if id = 0 then none
  else s.master.find? (fun i => (s.tasks i).id == id)

/-- Embedding of `mo_task_spawn` (task.c:750-838).  Entry/stack
validation and the allocation failures all `panic(...)`, so a returning
call is modelled directly.  The new TCB gets NORMAL priority, the id
`kcb->next_tid++` (a `uint16_t`, hence the mod-2^16 wrap), is appended to
the master list, becomes the current node if there was none, and is
enqueued READY at its level's tail.  Returns the new id. -/
def mo_task_spawn (s : SchedState) : SchedState × Nat :=
  let id := s.next_tid
  let lvl := extract_priority_level 0x1F1F
  let tcb : TCB := { id := id, state := TaskState.stopped, delay := 0,
                     prio := 0x1F1F, prio_level := lvl,
                     time_slice := get_priority_timeslice lvl }
  let s1 : SchedState :=
    { s with tasks := updTask s.tasks id (fun _ => tcb),
             master := s.master ++ [id],
             next_tid := (s.next_tid + 1) % 65536,
             task_count := (s.task_count + 1) % 65536,
             task_current := if s.task_current = none then some id else s.task_current }
  (sched_enqueue_task s1 id, id)

/-- Embedding of `mo_task_cancel` (task.c:840-880): self- and id-0 cancel
are rejected, a missing task reports `ERR_TASK_NOT_FOUND`, a RUNNING task
cannot be removed; otherwise the node is unlinked from the master list,
`kcb->task_count--` (`uint16_t`), and a READY task is also removed from
its ready queue. -/
def mo_task_cancel (s : SchedState) (id : Nat) : SchedState × Int :=
  if id = 0 ∨ id = mo_task_id s then (s, ERR_TASK_CANT_REMOVE)
  else
    match find_task_node_by_id s id with
    | none => (s, ERR_TASK_NOT_FOUND)
    | some nid =>
      if (s.tasks nid).state = TaskState.running then (s, ERR_TASK_CANT_REMOVE)
      else
        let s1 : SchedState :=
          { s with master := removeFirst s.master nid,
                   task_count := (s.task_count + 65535) % 65536 }
        if (s.tasks nid).state = TaskState.ready then
          (sched_dequeue_task s1 nid, ERR_OK)
        else (s1, ERR_OK)

theorem find_append_last (l : List Nat) (p : Nat → Bool) (x : Nat)
    (hl : ∀ i ∈ l, p i = false) (hx : p x = true) :
    (l ++ [x]).find? p = some x := by
  induction l with
  | nil => simp [List.find?, hx]
  | cons y ys ih =>
    have hy : p y = false := hl y (by simp)
    simp only [List.cons_append, List.find?, hy]
    exact ih (fun i hi => hl i (by simp [hi]))

theorem removeFirst_append_last (l : List Nat) (x : Nat) (hx : x ∉ l) :
    removeFirst (l ++ [x]) x = l := by
  induction l with
  | nil => simp [removeFirst]
  | cons y ys ih =>
    have hyx : y ≠ x := fun he => hx (he ▸ List.mem_cons_self y ys)
    have hstep : (y :: ys) ++ [x] = y :: (ys ++ [x]) := rfl
    rw [hstep]
    simp only [removeFirst, if_neg hyx]
    rw [ih (fun h => hx (List.mem_cons_of_mem y h))]

/-! ### Claim C8 (corrected)

`next_tid` is a `uint16_t`, so `tcb->id = kcb->next_tid++` wraps at
65536: strict monotonicity of `next_tid` across spawns fails exactly at
the wrap, refuting the claim as stated.  Away from the wrap the round
trip holds. -/

/-- Concrete kernel state one allocation away from the `uint16_t` wrap of
`next_tid`: task 1 exists and runs, and 65534 ids have already been
handed out. -/
def spawnWrapState : SchedState :=
  { tasks := fun j =>
      { id := j, state := if j = 1 then TaskState.running else TaskState.ready,
        delay := 0, prio := 0x1F1F, prio_level := 4, time_slice := 5 },
    master := [1],
    task_current := some 1,
    next_tid := 65535, task_count := 1,
    ready_bitmap := 1 <<< 4,
    ready_queues := fun i => if i = 4 then [1] else [],
    rr_cursors := fun i => if i = 4 then some 1 else none }

/-- C8 counterexample: spawning when `next_tid = 65535` hands out id
65535 but wraps `next_tid` to 0, so `next_tid` is not strictly increasing
across spawns — the monotonicity half of the claim fails on the code. -/
theorem spawn_next_tid_not_increasing :
    (mo_task_spawn spawnWrapState).2 = 65535
    ∧ (mo_task_spawn spawnWrapState).1.next_tid = 0
    ∧ ¬ (mo_task_spawn spawnWrapState).1.next_tid > spawnWrapState.next_tid := by
  refine ⟨rfl, rfl, ?_⟩
  decide

/-- C8 as amended: provided `next_tid` does not wrap (fewer than 2^16 ids
ever allocated, so `0 < next_tid` and `next_tid + 1 < 65536`, all live
ids below `next_tid` and equal to their heap key, and a current task from
the master list), a successful `mo_task_spawn` followed by
`mo_task_cancel` of the returned id restores `task_count` to its pre-call
value; `next_tid` strictly increases on the spawn, is untouched by the
cancel, and the next spawn hands out a strictly larger id, so the
cancelled id is not reused. -/
theorem spawn_cancel_spec (s : SchedState) (c : Nat)
    (hcoh : ∀ i ∈ s.master, (s.tasks i).id = i)
    (hfresh : ∀ i ∈ s.master, i < s.next_tid)
    (hpos : 0 < s.next_tid)
    (hwrap : s.next_tid + 1 < 65536)
    (hcount : s.task_count < 65536)
    (hcur : s.task_current = some c)
    (hcm : c ∈ s.master) :
    (mo_task_spawn s).2 = s.next_tid
    ∧ (mo_task_spawn s).1.next_tid = s.next_tid + 1
    ∧ s.next_tid < (mo_task_spawn s).1.next_tid
    ∧ (mo_task_cancel (mo_task_spawn s).1 (mo_task_spawn s).2).2 = ERR_OK
    ∧ (mo_task_cancel (mo_task_spawn s).1 (mo_task_spawn s).2).1.task_count
        = s.task_count
    ∧ (mo_task_cancel (mo_task_spawn s).1 (mo_task_spawn s).2).1.next_tid
        = s.next_tid + 1
    ∧ (mo_task_spawn (mo_task_cancel (mo_task_spawn s).1 (mo_task_spawn s).2).1).2
        ≠ (mo_task_spawn s).2 := by
  have hcnt : c ≠ s.next_tid := Nat.ne_of_lt (hfresh c hcm)
  have hmodn : (s.next_tid + 1) % 65536 = s.next_tid + 1 := Nat.mod_eq_of_lt hwrap
  have hTc : (mo_task_spawn s).1.task_current = some c := by
    simp [mo_task_spawn, sched_enqueue_task, hcur]
  have hStasks_c : (mo_task_spawn s).1.tasks c = s.tasks c := by
    simp only [mo_task_spawn, sched_enqueue_task]
    rw [updTask_other _ _ _ _ hcnt, updTask_other _ _ _ _ hcnt]
  have hmoid : mo_task_id (mo_task_spawn s).1 = c := by
    unfold mo_task_id
    rw [hTc]
    show ((mo_task_spawn s).1.tasks c).id = c
    rw [hStasks_c]
    exact hcoh c hcm
  have hguard : ¬ (s.next_tid = 0 ∨ s.next_tid = mo_task_id (mo_task_spawn s).1) := by
    rw [hmoid]
    push_neg
    exact ⟨Nat.pos_iff_ne_zero.mp hpos, Ne.symm hcnt⟩
  have hSid : (mo_task_spawn s).1.tasks s.next_tid
      = { id := s.next_tid, state := TaskState.ready, delay := 0,
          prio := 0x1F1F, prio_level := extract_priority_level 0x1F1F,
          time_slice := get_priority_timeslice (extract_priority_level 0x1F1F) } := by
    simp [mo_task_spawn, sched_enqueue_task, updTask]
  have hmaster : (mo_task_spawn s).1.master = s.master ++ [s.next_tid] := by
    simp [mo_task_spawn, sched_enqueue_task]
  have hfind : find_task_node_by_id (mo_task_spawn s).1 s.next_tid = some s.next_tid := by
    unfold find_task_node_by_id
    rw [if_neg (Nat.pos_iff_ne_zero.mp hpos), hmaster]
    apply find_append_last
    · intro i hi
      have hine : i ≠ s.next_tid := Nat.ne_of_lt (hfresh i hi)
      have : (mo_task_spawn s).1.tasks i = s.tasks i := by
        simp only [mo_task_spawn, sched_enqueue_task]
        rw [updTask_other _ _ _ _ hine, updTask_other _ _ _ _ hine]
      rw [this, hcoh i hi]
      simp [hine]
    · rw [hSid]
      simp
  have hntid : ¬ s.next_tid = 0 := Nat.pos_iff_ne_zero.mp hpos
  have hcancel : mo_task_cancel (mo_task_spawn s).1 s.next_tid =
      (sched_dequeue_task
        { (mo_task_spawn s).1 with
          master := removeFirst (mo_task_spawn s).1.master s.next_tid,
          task_count := ((mo_task_spawn s).1.task_count + 65535) % 65536 }
        s.next_tid, ERR_OK) := by
    unfold mo_task_cancel
    rw [if_neg hguard, hfind]
    simp [hSid]
  have hdq1 : ∀ (x : SchedState) (tid : Nat),
      (sched_dequeue_task x tid).task_count = x.task_count := by
    intro x tid
    by_cases h : (removeFirst (x.ready_queues ((x.tasks tid).prio_level)) tid).length = 0 <;>
      simp [sched_dequeue_task, h]
  have hdq2 : ∀ (x : SchedState) (tid : Nat),
      (sched_dequeue_task x tid).next_tid = x.next_tid := by
    intro x tid
    by_cases h : (removeFirst (x.ready_queues ((x.tasks tid).prio_level)) tid).length = 0 <;>
      simp [sched_dequeue_task, h]
  have hSnext : (mo_task_spawn s).1.next_tid = s.next_tid + 1 := by
    have : (mo_task_spawn s).1.next_tid = (s.next_tid + 1) % 65536 := rfl
    rw [this, hmodn]
  have hScount : (mo_task_spawn s).1.task_count = (s.task_count + 1) % 65536 := rfl
  simp only [show (mo_task_spawn s).2 = s.next_tid from rfl]
  refine ⟨trivial, hSnext, by omega, ?_, ?_, ?_, ?_⟩
  · rw [hcancel]
  · simp only [hcancel]
    rw [hdq1]
    simp only [hScount]
    omega
  · simp only [hcancel]
    rw [hdq2]
    exact hSnext
  · simp only [hcancel]
    have hnext2 : ∀ y : SchedState, (mo_task_spawn y).2 = y.next_tid :=
      fun _ => rfl
    rw [hnext2, hdq2]
    show ¬ (mo_task_spawn s).1.next_tid = s.next_tid
    rw [hSnext]
    omega

theorem spawn_cancel_spec_witness :
    (mo_task_spawn schedDemo).2 = 6
    ∧ (mo_task_cancel (mo_task_spawn schedDemo).1 (mo_task_spawn schedDemo).2).2 = ERR_OK
    ∧ (mo_task_cancel (mo_task_spawn schedDemo).1 (mo_task_spawn schedDemo).2).1.task_count
        = schedDemo.task_count := by
  have h := spawn_cancel_spec schedDemo 1 (by decide) (by decide) (by decide)
    (by decide) (by decide) rfl (by decide)
  exact ⟨h.1, h.2.2.2.1, h.2.2.2.2.1⟩

/-! ## Ring-buffer queue (src/include/lib/queue.h, src/lib/queue.c)

The SPSC ring of pointer elements, abstracted to its contents: `elems` is
the FIFO content (head first) and `size` the power-of-two ring size.  The
index arithmetic `(tail - head + size) & mask` equals `elems.length` and
`((tail + 1) & mask) == head` equals `elems.length + 1 = size`, so counting
and the full test are expressed directly on the contents. -/

structure Queue where
  elems : List Nat
  size : Nat
deriving DecidableEq, Repr

/-- Embedding of `ispowerof2` (private/utils.h). -/
def ispowerof2 (x : Nat) : Bool := x != 0 && x &&& (x - 1) == 0

/-- Embedding of `nextpowerof2` (private/utils.h): the uint32 bit-smearing
implementation, `x--` and `x++` written with the 2^32 wrap. -/
def nextpowerof2 (x : Nat) : Nat :=
  let x := (x + (2 ^ 32 - 1)) % 2 ^ 32
  let x := x ||| (x >>> 1)
  let x := x ||| (x >>> 2)
  let x := x ||| (x >>> 4)
  let x := x ||| (x >>> 8)
  let x := x ||| (x >>> 16)
  (x + 1) % 2 ^ 32

/-- Embedding of `queue_create` (queue.c:8-34): capacity at least 2,
rounded up to a power of two; the queue starts empty. -/
def queue_create (capacity : Nat) : Queue :=
  let cap := if capacity < 2 then 2 else capacity
  let cap := if ispowerof2 cap then cap else nextpowerof2 cap
  { elems := [], size := cap }

/-- Embedding of `queue_count` (queue.h). -/
def queue_count (q : Queue) : Nat := q.elems.length

/-- Embedding of `queue_is_full` (queue.h): the ring stores at most
`size - 1` elements. -/
def queue_is_full (q : Queue) : Bool := q.elems.length + 1 == q.size

/-- Embedding of `queue_enqueue` (queue.c:50-60): `none` models the
`ERR_FAIL` of a full ring. -/
def queue_enqueue (q : Queue) (x : Nat) : Option Queue :=
  if queue_is_full q then none else some { q with elems := q.elems ++ [x] }

/-- Embedding of `queue_dequeue` (queue.c:63-72): pop the FIFO head. -/
def queue_dequeue (q : Queue) : Option (Nat × Queue) :=
  match q.elems with
  | [] => none
  | x :: rest => some (x, { q with elems := rest })

/-! ## Counting semaphores (src/kernel/semaphore.c) -/

/-- The `sem_t` control block: wait queue, token count (`volatile
int32_t`) and wait-queue capacity bound. -/
structure SemObj where
  wait_q : Queue
  count : Int
  max_waiters : Nat
deriving DecidableEq, Repr

/-- SEM_MAX_COUNT = INT32_MAX - 1 (sys/semaphore.h). -/
def SEM_MAX_COUNT : Int := 2147483646

/-- Structural part of `sem_is_valid` (semaphore.c:28-32); the pointer and
magic checks hold for every live semaphore. -/
def sem_is_valid (s : SemObj) : Bool :=
  s.max_waiters > 0 && s.count ≥ 0 && s.count ≤ SEM_MAX_COUNT

/-- State a semaphore operation can touch: the semaphore and the scheduler
state (`_sched_block` / `_sched_block_enqueue` live in task.c). -/
structure SemSys where
  sem : SemObj
  sched : SchedState

/-- Embedding of `mo_sem_create` (semaphore.c:43-73): rejects
`max_waiters == 0`, a negative initial count and one above SEM_MAX_COUNT;
`alloc_ok` stands for the success of the two heap allocations (the `sem_t`
and its ring). -/
def mo_sem_create (alloc_ok : Bool) (max_waiters : Nat) (initial_count : Int) :
    Option SemObj :=
  if max_waiters = 0 ∨ initial_count < 0 ∨ initial_count > SEM_MAX_COUNT then none
  else if alloc_ok = false then none
  else some { wait_q := queue_create max_waiters,
              count := initial_count,
              max_waiters := max_waiters }

/-- Embedding of `_sched_block` (task.c:1095-1115): dequeue the caller
from its ready queue, append it to the wait queue (panic on ring
overflow), mark it BLOCKED; the caller then yields. -/
def _sched_block (sch : SchedState) (q : Queue) : Option (SchedState × Queue) :=
  match sch.task_current with
  | none => none
  | some self =>
    let s1 := sched_dequeue_task sch self
    match queue_enqueue q self with
    | none => none
    | some q' =>
      let f : TCB → TCB := fun t => { t with state := TaskState.blocked }
      some ({ s1 with tasks := updTask s1.tasks self f }, q')

/-- Embedding of `_sched_block_enqueue` (task.c:462-468). -/
def _sched_block_enqueue (sch : SchedState) (w : Nat) : SchedState :=
  if (sch.tasks w).state = TaskState.blocked then sched_enqueue_task sch w else sch

/-- Embedding of `mo_sem_wait` (semaphore.c:104-139).  The returned flag
is true when the caller blocked (and will resume holding the token that a
signaller hands over directly). -/
def mo_sem_wait (s : SemSys) : Option (SemSys × Bool) :=
  if sem_is_valid s.sem = false then none
  else if s.sem.count > 0 ∧ queue_count s.sem.wait_q = 0 then
    some ({ s with sem := { s.sem with count := s.sem.count - 1 } }, false)
  else if queue_count s.sem.wait_q ≥ s.sem.max_waiters then none
  else
    match _sched_block s.sched s.sem.wait_q with
    | none => none
    | some (sch', q') => some ({ sem := { s.sem with wait_q := q' }, sched := sch' }, true)

/-- Embedding of `mo_sem_trywait` (semaphore.c:141-158). -/
def mo_sem_trywait (s : SemSys) : SemSys × Int :=
  if sem_is_valid s.sem = false then (s, ERR_FAIL)
  else if s.sem.count > 0 ∧ queue_count s.sem.wait_q = 0 then
    ({ s with sem := { s.sem with count := s.sem.count - 1 } }, ERR_OK)
  else (s, ERR_FAIL)

/-- Embedding of `mo_sem_signal` (semaphore.c:160-209).  The returned flag
is `should_yield`.  With waiters present, the FIFO head is dequeued and —
after the BLOCKED sanity check, whose violation panics — made READY via
`_sched_block_enqueue`; `count` is deliberately not incremented (direct
handoff).  With no waiter, `count` is incremented unless it already equals
SEM_MAX_COUNT (silent saturation). -/
def mo_sem_signal (s : SemSys) : Option (SemSys × Bool) :=
  if sem_is_valid s.sem = false then none
  else if queue_count s.sem.wait_q > 0 then
    match queue_dequeue s.sem.wait_q with
    | none => some (s, false)
    | some (w, q') =>
      if (s.sched.tasks w).state = TaskState.blocked then
        some ({ sem := { s.sem with wait_q := q' },
                sched := _sched_block_enqueue s.sched w }, true)
      else none
  else
    some ({ s with sem := { s.sem with
              count := if s.sem.count < SEM_MAX_COUNT then s.sem.count + 1
                       else s.sem.count } }, false)

/-! ### Claims C2, C3 and C10 -/

/-- C2: `mo_sem_signal` on a valid semaphore with an empty wait queue
increments `count` unless it already equals SEM_MAX_COUNT, in which case
the count is silently left unchanged; with a non-empty wait queue it
dequeues exactly the FIFO head `w`, makes `w` READY, and leaves `count`
untouched (direct handoff).  The flag records the yield after a wake. -/
theorem sem_signal_spec (s : SemSys) (hval : sem_is_valid s.sem = true) :
    (queue_count s.sem.wait_q = 0 → s.sem.count < SEM_MAX_COUNT →
      mo_sem_signal s =
        some ({ s with sem := { s.sem with count := s.sem.count + 1 } }, false))
    ∧ (queue_count s.sem.wait_q = 0 → s.sem.count = SEM_MAX_COUNT →
        mo_sem_signal s = some (s, false))
    ∧ (∀ w rest, s.sem.wait_q.elems = w :: rest →
        (s.sched.tasks w).state = TaskState.blocked →
        mo_sem_signal s =
          some ({ sem := { s.sem with wait_q := { s.sem.wait_q with elems := rest } },
                  sched := _sched_block_enqueue s.sched w }, true)
        ∧ ((_sched_block_enqueue s.sched w).tasks w).state = TaskState.ready
        ∧ ({ s.sem with wait_q := { s.sem.wait_q with elems := rest } } : SemObj).count
            = s.sem.count) := by
  refine ⟨?_, ?_, ?_⟩
  · intro hq hlt
    have hq0 : ¬ queue_count s.sem.wait_q > 0 := by omega
    simp [mo_sem_signal, hval, hq0, hlt]
  · intro hq hmax
    have hq0 : ¬ queue_count s.sem.wait_q > 0 := by omega
    have hnlt : ¬ s.sem.count < SEM_MAX_COUNT := by omega
    simp [mo_sem_signal, hval, hq0, hnlt]
  · intro w rest helems hblk
    have hq : queue_count s.sem.wait_q > 0 := by
      simp [queue_count, helems]
    have hdq : queue_dequeue s.sem.wait_q =
        some (w, { s.sem.wait_q with elems := rest }) := by
      simp [queue_dequeue, helems]
    refine ⟨by simp [mo_sem_signal, hval, hq, hdq, hblk], ?_, rfl⟩
    simp [_sched_block_enqueue, hblk, sched_enqueue_task, updTask]

/-- Semaphore demo state: count 0, one blocked waiter (task 7); task 1 is
current and RUNNING. -/
def semDemo : SemSys :=
  { sem := { wait_q := { elems := [7], size := 4 }, count := 0, max_waiters := 3 },
    sched :=
      { tasks := fun j =>
          { id := j,
            state := if j = 7 then TaskState.blocked else TaskState.running,
            delay := 0, prio := 0x1F1F, prio_level := 4, time_slice := 5 },
        master := [1, 7], task_current := some 1,
        next_tid := 8, task_count := 2,
        ready_bitmap := 1 <<< 4,
        ready_queues := fun i => if i = 4 then [1] else [],
        rr_cursors := fun i => if i = 4 then some 1 else none } }

theorem sem_signal_spec_witness :
    mo_sem_signal semDemo =
      some ({ sem := { semDemo.sem with
                wait_q := { semDemo.sem.wait_q with elems := [] } },
              sched := _sched_block_enqueue semDemo.sched 7 }, true)
    ∧ ((_sched_block_enqueue semDemo.sched 7).tasks 7).state = TaskState.ready := by
  have h := (sem_signal_spec semDemo (by decide)).2.2 7 [] rfl (by decide)
  exact ⟨h.1, h.2.1⟩

/-- The semaphore invariant of the spec: a positive count implies an empty
wait queue. -/
def sem_inv (o : SemObj) : Prop := o.count > 0 → o.wait_q.elems = []

/-- C3: the invariant `count > 0 → wait queue empty` is preserved by every
non-panicking run of `mo_sem_wait`, `mo_sem_trywait` and `mo_sem_signal`
from any state satisfying it: the waits decrement `count` only when the
queue is empty, a task enqueues itself only when `count = 0`, and a signal
increments `count` only when no waiter is present. -/
theorem sem_invariant_preserved (s : SemSys) (hinv : sem_inv s.sem) :
    (∀ s' b, mo_sem_wait s = some (s', b) → sem_inv s'.sem)
    ∧ sem_inv (mo_sem_trywait s).1.sem
    ∧ (∀ s' b, mo_sem_signal s = some (s', b) → sem_inv s'.sem) := by
  refine ⟨?_, ?_, ?_⟩
  · intro s' b h
    by_cases hv : sem_is_valid s.sem = false
    · simp [mo_sem_wait, hv] at h
    · by_cases hfast : s.sem.count > 0 ∧ queue_count s.sem.wait_q = 0
      · simp [mo_sem_wait, hv, hfast] at h
        intro hc
        rw [← h.1]
        exact hinv (by simp; omega)
      · by_cases hcap : queue_count s.sem.wait_q ≥ s.sem.max_waiters
        · simp [mo_sem_wait, hv, hfast, hcap] at h
        · have hc0 : ¬ s.sem.count > 0 := by
            intro hc
            have he : s.sem.wait_q.elems = [] := hinv hc
            exact hfast ⟨hc, by simp [queue_count, he]⟩
          cases hblock : _sched_block s.sched s.sem.wait_q with
          | none => simp [mo_sem_wait, hv, hfast, hcap, hblock] at h
          | some p =>
            simp [mo_sem_wait, hv, hfast, hcap, hblock] at h
            intro hc
            rw [← h.1] at hc
            exact absurd hc hc0
  · by_cases hv : sem_is_valid s.sem = false
    · simpa [mo_sem_trywait, hv] using hinv
    · by_cases hfast : s.sem.count > 0 ∧ queue_count s.sem.wait_q = 0
      · simp [mo_sem_trywait, hv, hfast]
        intro hc
        exact hinv (by omega)
      · simpa [mo_sem_trywait, hv, hfast] using hinv
  · intro s' b h
    by_cases hv : sem_is_valid s.sem = false
    · simp [mo_sem_signal, hv] at h
    · cases helems : s.sem.wait_q.elems with
      | nil =>
        have hq0 : ¬ queue_count s.sem.wait_q > 0 := by simp [queue_count, helems]
        simp [mo_sem_signal, hv, hq0] at h
        intro _
        rw [← h.1]
        simp [helems]
      | cons w rest =>
        have hq : queue_count s.sem.wait_q > 0 := by simp [queue_count, helems]
        have hdq : queue_dequeue s.sem.wait_q =
            some (w, { s.sem.wait_q with elems := rest }) := by
          simp [queue_dequeue, helems]
        by_cases hblk : (s.sched.tasks w).state = TaskState.blocked
        · simp [mo_sem_signal, hv, hq, hdq, hblk] at h
          intro hc
          rw [← h.1] at hc
          have := hinv hc
          rw [helems] at this
          exact absurd this (by simp)
        · simp [mo_sem_signal, hv, hq, hdq, hblk] at h

theorem sem_invariant_preserved_witness :
    sem_inv (mo_sem_trywait semDemo).1.sem := by
  exact (sem_invariant_preserved semDemo (fun hc => absurd hc (by decide))).2.1

/-- C10: `mo_sem_create` returns NULL exactly when `max_waiters == 0`,
`initial_count < 0` or `initial_count > SEM_MAX_COUNT` (whatever the
allocator does); within bounds and with the allocations succeeding the
semaphore it returns has `count = initial_count`, an empty wait queue, and
`max_waiters` as its wait-queue capacity bound. -/
theorem sem_create_spec (max_waiters : Nat) (initial_count : Int) :
    (max_waiters = 0 ∨ initial_count < 0 ∨ initial_count > SEM_MAX_COUNT →
      ∀ a, mo_sem_create a max_waiters initial_count = none)
    ∧ (max_waiters ≠ 0 → 0 ≤ initial_count → initial_count ≤ SEM_MAX_COUNT →
        mo_sem_create true max_waiters initial_count =
          some { wait_q := queue_create max_waiters,
                 count := initial_count, max_waiters := max_waiters }
        ∧ (queue_create max_waiters).elems = []) := by
  constructor
  · intro hbad a
    simp [mo_sem_create, hbad]
  · intro h0 hlo hhi
    have hok : ¬ (max_waiters = 0 ∨ initial_count < 0 ∨ initial_count > SEM_MAX_COUNT) := by
      push_neg
      exact ⟨h0, hlo, hhi⟩
    refine ⟨by simp [mo_sem_create, hok], ?_⟩
    simp [queue_create]

theorem sem_create_spec_witness :
    mo_sem_create true 3 2 =
      some { wait_q := queue_create 3, count := 2, max_waiters := 3 }
    ∧ (queue_create 3).elems = [] := by
  exact (sem_create_spec 3 2).2 (by decide) (by decide) (by decide)

/-! ## Software timers (src/kernel/timer.c) and claim C7

Timers live in a static pool zeroed at subsystem init.  The active list
`kcb->timer_list` is threaded through the timers' intrusive
`t_running_node`s: `timer_sorted_insert_running_list` links
`&timer->t_running_node` directly and `timer_from_running_node` is
`container_of`.  The generic `list_pop` (list.h:98-110), however, returns
the popped node's `data` field (and frees the node); the timer module
never assigns `t_running_node.data`, so that field keeps the NULL written
by the `memset` in `timer_subsystem_init`.  The model keeps this `data`
field (`running_data`, `none` = NULL) to expose the mismatch: the tick
handler stores `list_pop(...)` results and then applies
`timer_from_running_node` to them, i.e. `container_of` to NULL. -/

inductive TimerMode where
  | disabled
  | oneshot
  | autoreload
deriving DecidableEq, Repr

/-- The `timer_t` record (sys/timer.h).  `running_data` is the `data`
field of the intrusive `t_running_node`; `some u` would be a pointer to
timer `u`'s running node, `none` is NULL. -/
structure TimerRec where
  id : Nat
  deadline_ticks : Nat
  last_expected_fire_tick : Nat
  period_ms : Nat
  mode : TimerMode
  running_data : Option Nat
deriving DecidableEq, Repr

abbrev TimerHeap := Nat → TimerRec

def updTimer (h : TimerHeap) (i : Nat) (f : TimerRec → TimerRec) : TimerHeap :=
  fun j => if j = i then f (h j) else h j

/-- Embedding of `MS_TO_TICKS` (sys/timer.h): 64-bit product and divide,
truncated to uint32. -/
def MS_TO_TICKS (fTimer ms : Nat) : Nat := ms * fTimer / 1000 % 2 ^ 32

/-- Embedding of `timer_sorted_insert_running_list` (timer.c:126-152):
link the timer's running node before the first strictly later deadline
(ties keep insertion order). -/
def timer_sorted_insert (h : TimerHeap) (tid : Nat) : List Nat → List Nat
  | [] => [tid]
  | x :: xs =>
    if (h tid).deadline_ticks < (h x).deadline_ticks then tid :: x :: xs
    else x :: timer_sorted_insert h tid xs

/-- The timer produced by `mo_timer_create` (timer.c:268-306) from a
zeroed pool slot: DISABLED, zero deadlines, and — decisively — the
running node's `data` still NULL, since no timer-module code ever
assigns it. -/
def mo_timer_create_rec (id period_ms : Nat) : TimerRec :=
  { id := id, deadline_ticks := 0, last_expected_fire_tick := 0,
    period_ms := period_ms, mode := TimerMode.disabled, running_data := none }

/-- Embedding of `mo_timer_start` (timer.c:350-378): unlink if already
running, set the mode, arm `deadline = now + MS_TO_TICKS(period)` (uint32)
and insert into the sorted active list. -/
def mo_timer_start (fTimer now : Nat) (h : TimerHeap) (l : List Nat)
    (tid : Nat) (mode : TimerMode) : TimerHeap × List Nat :=
  let l1 := if (h tid).mode ≠ TimerMode.disabled then removeFirst l tid else l
  let dl := (now + MS_TO_TICKS fTimer (h tid).period_ms) % 2 ^ 32
  let h' := updTimer h tid
    (fun t => { t with mode := mode, last_expected_fire_tick := dl,
                       deadline_ticks := dl })
  (h', timer_sorted_insert h' tid l1)

/-- The collection loop of `_timer_tick_handler` (timer.c:210-223): while
the list is non-empty, fewer than TIMER_BATCH_SIZE timers were collected
and the head (read correctly through `timer_from_running_node` on the head
node) is expired (`now >= deadline_ticks`), pop the head with `list_pop`
and store its return value — the popped node's `data` field.  Returns the
stored values in order and the remaining active list. -/
def tick_collect (h : TimerHeap) (now : Nat) :
    List Nat → Nat → List (Option Nat) × List Nat
  | l, 0 => ([], l)
  | [], _ + 1 => ([], [])
  | t :: rest, fuel + 1 =>
    if now ≥ (h t).deadline_ticks then
      let r := tick_collect h now rest fuel
      ((h t).running_data :: r.1, r.2)
    else ([], t :: rest)

/-- The processing loop of `_timer_tick_handler` (timer.c:226-244): for
each stored value, recover the timer with `timer_from_running_node`
(`container_of`) — applied to NULL (`none`) this is undefined behavior,
modelled as `none` — run the callback, then either advance an AUTO_RELOAD
timer by its period from the previously expected fire time and re-insert
it in sorted order, or disable a one-shot.  Also returns the fired ids in
order. -/
def tick_process (fTimer : Nat) :
    TimerHeap → List Nat → List (Option Nat) → Option (TimerHeap × List Nat × List Nat)
  | h, l, [] => some (h, l, [])
  | h, l, d :: ds =>
    match d with
    | none => none
    | some u =>
      if (h u).mode = TimerMode.autoreload then
        let le := ((h u).last_expected_fire_tick + MS_TO_TICKS fTimer (h u).period_ms) % 2 ^ 32
        let h' := updTimer h u
          (fun t => { t with last_expected_fire_tick := le, deadline_ticks := le })
        let l' := timer_sorted_insert h' u l
        match tick_process fTimer h' l' ds with
        | none => none
        | some (h2, l2, fired) => some (h2, l2, u :: fired)
      else
        let h' := updTimer h u (fun t => { t with mode := TimerMode.disabled })
        match tick_process fTimer h' l ds with
        | none => none
        | some (h2, l2, fired) => some (h2, l2, u :: fired)

/-- Embedding of `_timer_tick_handler` (timer.c:199-245) with
`TIMER_BATCH_SIZE = 4`. -/
def _timer_tick_handler (fTimer now : Nat) (h : TimerHeap) (l : List Nat) :
    Option (TimerHeap × List Nat × List Nat) :=
  if l = [] then some (h, l, [])
  else
    let c := tick_collect h now l 4
    tick_process fTimer h c.2 c.1

/-! ### Claim C7 (code bug)

Failing input: a 1 kHz tick (`F_TIMER = 1000`), one timer of period
100 ms created from the zeroed pool and started AUTO_RELOAD at tick 0
(armed for tick 100), tick handler invoked at tick 100. -/

def timerDemoHeap : TimerHeap := fun _ => mo_timer_create_rec 0x6000 100

/-- C7, evaluated at the failing input: the started timer is armed for
tick 100 in AUTO_RELOAD mode and is the head of the active list; at tick
100 the head is expired, so the claim requires it to fire and be
re-armed for tick 200.  Instead the handler's `list_pop` hands the
processing loop the head node's never-initialized `data` pointer (NULL),
`timer_from_running_node` is applied to NULL, and no timer can be
recovered: the run is undefined (`none`).  (`mo_mutex_unlock` in the same
repository converts `list_pop` results through the container-of macro,
confirming `list_pop` returns `data`, not the node.) -/
theorem timer_tick_handler_bug :
    (mo_timer_start 1000 0 timerDemoHeap [] 0x6000 TimerMode.autoreload).2 = [0x6000]
    ∧ ((mo_timer_start 1000 0 timerDemoHeap [] 0x6000 TimerMode.autoreload).1 0x6000).mode
        = TimerMode.autoreload
    ∧ ((mo_timer_start 1000 0 timerDemoHeap [] 0x6000 TimerMode.autoreload).1 0x6000).deadline_ticks
        = 100
    ∧ ((mo_timer_start 1000 0 timerDemoHeap [] 0x6000 TimerMode.autoreload).1 0x6000).deadline_ticks
        ≤ 100
    ∧ _timer_tick_handler 1000 100
        (mo_timer_start 1000 0 timerDemoHeap [] 0x6000 TimerMode.autoreload).1
        (mo_timer_start 1000 0 timerDemoHeap [] 0x6000 TimerMode.autoreload).2
      = none := by
  refine ⟨rfl, rfl, rfl, ?_, rfl⟩
  decide

end Linmo
